import Mathlib

/-!
Verification of the PixTASM core: the attribute codec (`src/color.ts`), the
TASM code generator (`src/tasm/generator.ts`, with the older snapshot of the
same function), and the sprite-table emitter (`generateSpriteDB`).

The TypeScript code is shallowly embedded: JavaScript numbers holding byte
values become `Nat`, `x | null` fields become `Option`, and a grid slot that
may itself be `null` becomes `Option CellContent`.  The only way a charCode
can be `undefined` in the generator is reading `cell?.charCode` off an absent
cell, which the embedding renders as the outer `none` of `Option (Option Nat)`.
-/

set_option maxRecDepth 10000

/-- Mirror of `CellContent` from `src/types.ts`: both fields are
`number | null`. -/
structure CellContent where
  charCode : Option Nat
  attr : Option Nat
deriving DecidableEq, Repr

/-- A grid slot: `CellContent | null`. -/
abbrev Cell := Option CellContent

/-! ## Attribute codec (`src/color.ts`) -/

def BLINK_MASK : Nat := 0b10000000

def BACKGROUND_MASK : Nat := 0b01110000

def FOREGROUND_MASK : Nat := 0b00001111

def BACKGROUND_PALETTE : List String :=
  ["#000", "#00A", "#0A0", "#0AA", "#A00", "#A0A", "#AA0", "#AAA"]

def FOREGROUND_PALETTE : List String :=
  ["#000", "#00A", "#0A0", "#0AA", "#A00", "#A0A", "#AA0", "#AAA",
   "#555", "#55F", "#5F5", "#5FF", "#F55", "#F5A", "#FF5", "#FFF"]

/-- Result record of `decodeCellData`.  The palette lookups are JavaScript
array indexing, which yields `undefined` out of range, hence `Option`. -/
structure DecodedCellData where
  isBlinking : Bool
  backgroundColor : Option String
  foregroundColor : Option String
deriving DecidableEq, Repr

/-- Mirror of `decodeCellData` from `src/color.ts`. -/
def decodeCellData (value : Nat) : DecodedCellData :=
  let isBlinking := (value &&& BLINK_MASK) != 0
  let bgIndex := (value &&& BACKGROUND_MASK) >>> 4
  let fgIndex := value &&& FOREGROUND_MASK
  { isBlinking := isBlinking
    backgroundColor := BACKGROUND_PALETTE.get? bgIndex
    foregroundColor := FOREGROUND_PALETTE.get? fgIndex }

/-- Mirror of `encodeCellData` from `src/color.ts` (its single object argument
`{bgIndex, fgIndex, isBlinking}` is passed as three parameters). -/
def encodeCellData (bgIndex fgIndex : Nat) (isBlinking : Bool) : Nat :=
  let v0 : Nat := 0
  let v1 := if isBlinking then v0 ||| BLINK_MASK else v0
  let v2 := v1 ||| ((bgIndex <<< 4) &&& BACKGROUND_MASK)
  v2 ||| (fgIndex &&& FOREGROUND_MASK)

/-- Claim C2: for every backgroundIndex in [0,7], foregroundIndex in [0,15]
and blink flag, `decodeCellData (encodeCellData bg fg blink)` recovers the
inputs exactly: the blink flag, `BACKGROUND_PALETTE[bg]` and
`FOREGROUND_PALETTE[fg]`; moreover both palettes have pairwise-distinct
entries, so recovering the colors is the same as recovering the indices. -/
theorem c2_encode_decode_roundtrip :
    (∀ (bg : Fin 8) (fg : Fin 16) (blink : Bool),
      decodeCellData (encodeCellData bg.val fg.val blink) =
        { isBlinking := blink
          backgroundColor := BACKGROUND_PALETTE.get? bg.val
          foregroundColor := FOREGROUND_PALETTE.get? fg.val }) ∧
    BACKGROUND_PALETTE.Nodup ∧ FOREGROUND_PALETTE.Nodup := by
  decide

/-- Claim C3: `decodeCellData` is total on bytes: for every value in
[0,255] the computed background index `(value AND 0x70) >>> 4` is below 8,
the foreground index `value AND 0x0F` is below 16, and both palette lookups
succeed, returning an entry of the 8-element (resp. 16-element) table. -/
theorem c3_decode_total :
    ∀ v : Fin 256,
      (v.val &&& BACKGROUND_MASK) >>> 4 < 8 ∧
      v.val &&& FOREGROUND_MASK < 16 ∧
      (∃ b ∈ BACKGROUND_PALETTE,
        (decodeCellData v.val).backgroundColor = some b) ∧
      (∃ f ∈ FOREGROUND_PALETTE,
        (decodeCellData v.val).foregroundColor = some f) := by
  decide

/-! ## Segment grouper (the per-row scan inside `generateTASMCode`,
`src/tasm/generator.ts` lines 79-178) -/

/-- A segment emitted by the per-row scan: either a text run (the collected
character codes) or a block run (one character/attribute pair repeated). -/
inductive Segment where
  | text (startCol : Nat) (attr : Nat) (chars : List Nat)
  | block (startCol : Nat) (charCode : Nat) (attr : Nat) (count : Nat)
deriving DecidableEq, Repr

/-- The `nextAttribute` computation of the scan loops:
`nextCell && nextCell.attribute !== null ? nextCell.attribute : 0x07`. -/
def effAttr : Cell → Nat
  | none => 0x07
  | some cc => cc.attr.getD 0x07

/-- The `nextRenderChar` computation of the block loop:
`nextCell && nextCell.charCode !== null ? nextCell.charCode : 0x20`. -/
def effChar : Cell → Nat
  | none => 0x20
  | some cc => cc.charCode.getD 0x20

/-- The `nextCell?.charCode` read: `none` is JavaScript `undefined` (absent
cell), `some none` is `null` (cell present, charCode null). -/
def cellCharCode (c : Cell) : Option (Option Nat) :=
  c.map fun cc => cc.charCode

/-- The text-segment accumulation loop of `generateTASMCode` (lines 101-114):
starting at the current cell it walks right while
`nextCharCode !== null && nextAttribute === currentAttribute && nextCharCode !== 36`,
pushing `nextCharCode` only when it is not `undefined`.  Returns the collected
character codes and the number of cells walked over. -/
def textScan (a : Nat) : List Cell → List Nat × Nat
  | [] => ([], 0)
  | c :: rest =>
    let nextCharCode := cellCharCode c
    let nextAttribute := effAttr c
    if nextCharCode ≠ some none ∧ nextAttribute = a ∧
        nextCharCode ≠ some (some 36) then
      let p := textScan a rest
      ((match nextCharCode with
        | some (some v) => v :: p.1
        | _ => p.1), p.2 + 1)
    else ([], 0)

/-- The block accumulation loop of `generateTASMCode` (lines 155-168): walks
right while the effective char and attribute both equal the key, returning
the run length. -/
def blockScan (ch a : Nat) : List Cell → Nat
  | [] => 0
  | c :: rest =>
    if effChar c = ch ∧ effAttr c = a then blockScan ch a rest + 1
    else 0

/-- One row of the scan of `generateTASMCode` (`src/tasm/generator.ts`,
current version, lines 80-178), as a fuel-indexed recursion: each unit of
fuel is one iteration of the `while (col < gridData[row].length)` loop, and
every iteration consumes at least one cell, so `row.length` fuel suffices.
`col` is the absolute column of the first cell of `cells`. -/
def scanRowFuel : Nat → Nat → List Cell → List Segment
  | 0, _, _ => []
  | _ + 1, _, [] => []
  | fuel + 1, col, cell :: rest =>
    match cell with
    | none => scanRowFuel fuel (col + 1) rest
    | some cc =>
      if cc.charCode = none ∧ cc.attr = none then
        scanRowFuel fuel (col + 1) rest
      else
        let currentAttribute := cc.attr.getD 0x07
        if cc.attr = none ∧ cc.charCode = none then
          scanRowFuel fuel (col + 1) rest
        else
          let tp :=
            if cc.charCode ≠ none ∧ cc.charCode ≠ some 36 then
              textScan currentAttribute (cell :: rest)
            else ([], 0)
          if tp.1.length > 0 then
            Segment.text col currentAttribute tp.1 ::
              scanRowFuel fuel (col + tp.2) ((cell :: rest).drop tp.2)
          else
            let renderChar := cc.charCode.getD 0x20
            let renderAttribute := cc.attr.getD 0x07
            let count := blockScan renderChar renderAttribute (cell :: rest)
            if count > 0 then
              Segment.block col renderChar renderAttribute count ::
                scanRowFuel fuel (col + count) ((cell :: rest).drop count)
            else
              scanRowFuel fuel (col + 1) rest

/-- The scan of one whole row, started with enough fuel for every iteration
of the while loop. -/
def rowSegments (row : List Cell) : List Segment :=
  scanRowFuel row.length 0 row

/-- The `(row, segment)` stream of the whole grid in row-major order. -/
def gridSegmentsAux : Nat → List (List Cell) → List (Nat × Segment)
  | _, [] => []
  | r, row :: rest =>
    (rowSegments row).map (fun s => (r, s)) ++ gridSegmentsAux (r + 1) rest

/-- All segments produced by `generateTASMCode` over a grid. -/
def gridSegments (g : List (List Cell)) : List (Nat × Segment) :=
  gridSegmentsAux 0 g

/-- Start column of a segment. -/
def segStart : Segment → Nat
  | .text c _ _ => c
  | .block c _ _ _ => c

/-- Length of a segment as a column range: character count for a text
segment, repeat count for a block segment. -/
def segLen : Segment → Nat
  | .text _ _ chars => chars.length
  | .block _ _ _ n => n

/-- The columns covered by a list of segments, reading each segment as the
range `[startCol, startCol + length)`. -/
def segColumns (segs : List Segment) : List Nat :=
  segs.flatMap fun s => List.range' (segStart s) (segLen s)

/-- A cell is absent when it is `null` or both fields are `null`
(the skip condition of the scan). -/
def cellAbsent : Cell → Bool
  | none => true
  | some cc => cc.charCode = none && cc.attr = none

/-- The columns of a row holding non-absent cells. -/
def nonAbsentCols (row : List Cell) : List Nat :=
  (List.range row.length).filter fun i => !cellAbsent (row.getD i none)

/-- Bool test for a text segment. -/
def isTextSeg : Segment → Bool
  | .text _ _ _ => true
  | .block _ _ _ _ => false

/-- The row used to exhibit the coverage bug of claim C1: a drawn cell,
an absent cell, then another drawn cell, all with effective attribute 0x07. -/
def row1 : List Cell :=
  [some ⟨some 65, some 7⟩, none, some ⟨some 66, some 7⟩]

/-- Claim C1 (code bug): on `row1`, reading `cell?.charCode` off the absent
middle cell yields JavaScript `undefined`, which passes the `!== null` and
`!== 36` tests of the text loop while its defaulted attribute 0x07 matches
the segment, so the absent cell is swallowed into one text segment "AB" at
column 0.  The segments then cover columns {0,1} while the non-absent cells
sit at columns {0,2}: coverage fails in both directions. -/
theorem c1_scan_absorbs_absent_cell :
    rowSegments row1 = [Segment.text 0 7 [65, 66]] ∧
    segColumns (rowSegments row1) = [0, 1] ∧
    nonAbsentCols row1 = [0, 2] ∧
    segColumns (rowSegments row1) ≠ nonAbsentCols row1 := by
  decide

/-- The row refuting the general form of claim C4: cells `A`, `B` with
attribute 0x07 and `C` with attribute 0x11. -/
def rowC4 : List Cell :=
  [some ⟨some 65, some 7⟩, some ⟨some 66, some 7⟩, some ⟨some 67, some 17⟩]

/-- Claim C4, counterexample: in `rowC4` the cell at column 1 has a present
character code 66 ≠ 36 and its right neighbour has a different effective
attribute (0x11 vs 0x07), yet no length-1 text segment covers column 1 —
the scan puts it inside the length-2 text segment "AB". -/
theorem c4_counterexample :
    cellCharCode (rowC4.getD 1 none) = some (some 66) ∧
    effAttr (rowC4.getD 2 none) ≠ effAttr (rowC4.getD 1 none) ∧
    rowSegments rowC4 = [Segment.text 0 7 [65, 66], Segment.text 2 17 [67]] ∧
    ¬ (∃ s ∈ rowSegments rowC4, isTextSeg s = true ∧ segLen s = 1 ∧
        segStart s ≤ 1 ∧ 1 < segStart s + segLen s) := by
  decide

/-- Claim C4 as amended: the tie-break holds at scan-cursor positions.  When
the scan stops at a cell with a present character code ≠ 36 whose immediate
right neighbour has a different effective attribute, it emits a text segment
of exactly that one character (never a block segment) and moves on by one
column.  In particular the 1x2 grid of scenario D yields two separate
length-1 text segments. -/
theorem c4_amended :
    (∀ (fuel col : Nat) (cc : CellContent) (ch : Nat) (c1 : Cell)
        (rest : List Cell),
      cc.charCode = some ch → ch ≠ 36 → effAttr c1 ≠ cc.attr.getD 7 →
      scanRowFuel (fuel + 1) col (some cc :: c1 :: rest) =
        Segment.text col (cc.attr.getD 7) [ch] ::
          scanRowFuel fuel (col + 1) (c1 :: rest)) ∧
    rowSegments [some ⟨some 65, some 7⟩, some ⟨some 66, some 17⟩] =
      [Segment.text 0 7 [65], Segment.text 1 17 [66]] := by
  constructor
  · intro fuel col cc ch c1 rest hch hne hattr
    have h36 : cc.charCode ≠ some 36 := by
      rw [hch]; exact fun h => hne (Option.some_injective _ h)
    have hcc : cc.charCode ≠ none := by rw [hch]; exact Option.some_ne_none ch
    have hc1 : ¬(cellCharCode c1 ≠ some none ∧ effAttr c1 = cc.attr.getD 7 ∧
        cellCharCode c1 ≠ some (some 36)) := fun h => hattr h.2.1
    have htext : textScan (cc.attr.getD 7) (some cc :: c1 :: rest) = ([ch], 1) := by
      simp only [textScan]
      split
      · simp only [if_neg hc1]
        simp [cellCharCode, hch]
      · next hcond =>
        exact absurd ⟨by simp [cellCharCode, hch], rfl,
          by simp [cellCharCode, hch, hne]⟩ hcond
    simp only [scanRowFuel]
    rw [if_neg (fun h => hcc h.1), if_neg (fun h => hcc h.2)]
    rw [if_pos (show ¬cc.charCode = none ∧ ¬cc.charCode = some 36 from ⟨hcc, h36⟩)]
    rw [htext]
    simp
  · decide

theorem c4_amended_witness :
    (⟨some 65, some 7⟩ : CellContent).charCode = some 65 ∧ (65 : Nat) ≠ 36 ∧
    effAttr (some ⟨some 66, some 17⟩) ≠
      (⟨some 65, some 7⟩ : CellContent).attr.getD 7 ∧
    scanRowFuel 2 0 [some ⟨some 65, some 7⟩, some ⟨some 66, some 17⟩] =
      Segment.text 0 7 [65] :: scanRowFuel 1 1 [some ⟨some 66, some 17⟩] :=
  ⟨rfl, by decide, by decide,
    c4_amended.1 1 0 ⟨some 65, some 7⟩ 65 (some ⟨some 66, some 17⟩) [] rfl
      (by decide) (by decide)⟩

/-- The text loop never collects the character code 36: a `$` cell fails the
`nextCharCode !== 36` test and stops the loop before any push. -/
theorem textScan_chars_ne36 (a : Nat) (l : List Cell) : 36 ∉ (textScan a l).1 := by
  induction l with
  | nil => simp [textScan]
  | cons c rest ih =>
    simp only [textScan]
    split
    · next hcond =>
      cases c with
      | none =>
        simp only [cellCharCode, Option.map_none']
        exact ih
      | some cc =>
        cases hcc : cc.charCode with
        | none =>
          exact absurd (by simp [cellCharCode, hcc]) hcond.1
        | some v =>
          have hv : v ≠ 36 := fun hv =>
            hcond.2.2 (by simp [cellCharCode, hcc, hv])
          simp only [cellCharCode, Option.map_some', hcc, List.mem_cons]
          rintro (h | h)
          · exact hv h.symm
          · exact ih h
    · simp

/-- No text segment produced by the row scan contains the character code 36,
for any fuel, start column and cell list. -/
theorem scanRowFuel_text_ne36 :
    ∀ (fuel col : Nat) (cells : List Cell) (c0 a : Nat) (chars : List Nat),
      Segment.text c0 a chars ∈ scanRowFuel fuel col cells → 36 ∉ chars := by
  intro fuel
  induction fuel with
  | zero => intro col cells c0 a chars h; simp [scanRowFuel] at h
  | succ n ih =>
    intro col cells c0 a chars h
    match cells with
    | [] => simp [scanRowFuel] at h
    | none :: rest =>
      exact ih _ _ _ _ _ (by simpa [scanRowFuel] using h)
    | some cc :: rest =>
      simp only [scanRowFuel] at h
      split at h
      · exact ih _ _ _ _ _ h
      · split at h
        · exact ih _ _ _ _ _ h
        · split at h
          · split at h
            · rcases List.mem_cons.mp h with h1 | h2
              · obtain ⟨-, -, hchars⟩ := Segment.text.inj h1
                subst hchars
                exact textScan_chars_ne36 _ _
              · exact ih _ _ _ _ _ h2
            · split at h
              · rcases List.mem_cons.mp h with h1 | h2
                · exact absurd h1 (by simp)
                · exact ih _ _ _ _ _ h2
              · exact ih _ _ _ _ _ h
          · split at h
            · rcases List.mem_cons.mp h with h1 | h2
              · obtain ⟨-, -, hchars⟩ := Segment.text.inj h1
                subst hchars
                simp
              · exact ih _ _ _ _ _ h2
            · split at h
              · rcases List.mem_cons.mp h with h1 | h2
                · exact absurd h1 (by simp)
                · exact ih _ _ _ _ _ h2
              · exact ih _ _ _ _ _ h

/-- Lift of the no-36 property to the whole-grid segment stream. -/
theorem gridSegmentsAux_text_ne36 :
    ∀ (r0 : Nat) (g : List (List Cell)) (r c0 a : Nat) (chars : List Nat),
      (r, Segment.text c0 a chars) ∈ gridSegmentsAux r0 g → 36 ∉ chars := by
  intro r0 g
  induction g generalizing r0 with
  | nil => intro r c0 a chars h; simp [gridSegmentsAux] at h
  | cons row rest ih =>
    intro r c0 a chars h
    rcases List.mem_append.mp h with h1 | h2
    · obtain ⟨s, hs, he⟩ := List.mem_map.mp h1
      injection he with h1r h1s
      exact scanRowFuel_text_ne36 _ _ _ _ _ _ (h1s ▸ hs)
    · exact ih _ _ _ _ _ h2

/-- Claim C5: no text segment emitted by `generateTASMCode` contains the
character code 36 (`$`); and for the 1x1 grid whose single cell is
`{charCode: 36, attribute: 0x07}` the generator emits a single block
(renderc) segment, not a text segment. -/
theorem c5_text_excludes_dollar :
    (∀ (g : List (List Cell)) (r c0 a : Nat) (chars : List Nat),
      (r, Segment.text c0 a chars) ∈ gridSegments g → 36 ∉ chars) ∧
    gridSegments [[some ⟨some 36, some 7⟩]] =
      [(0, Segment.block 0 36 7 1)] := by
  constructor
  · intro g r c0 a chars h
    exact gridSegmentsAux_text_ne36 0 g r c0 a chars h
  · decide

theorem c5_witness :
    (0, Segment.text 0 7 [65]) ∈ gridSegments [[some ⟨some 65, some 7⟩]] ∧
    36 ∉ [65] :=
  ⟨by decide,
    c5_text_excludes_dollar.1 [[some ⟨some 65, some 7⟩]] 0 0 7 [65] (by decide)⟩

/-! ## Code emitter (`src/tasm/generator.ts` lines 11-62 and 116-201) -/

/-- The `macros` template string of `generator.ts` (lines 11-41). -/
def macros : String :=
  "\nputc MACRO char\n    mov ah, 02h\n    mov dl, char\n    int 21h\nENDM\nrenderc MACRO char, page, color, write\n    mov ah, 09h \n    mov al, char\n    mov bh, page\n    mov bl, color\n    mov cx, write\n    int 10h\nENDM\nsetcursor MACRO row, col\n    mov ah, 02h\n    mov bh, 00h\n    mov dh, row\n    mov dl, col\n    int 10h\nENDM\ncolorz MACRO color, write\n    mov ah, 09h \n    mov bl, color\n    mov cx, write\n    int 10h\nENDM\n.model small\n.data\n.code\n"

/-- The `startCode` template (lines 44-54): `macros` plus the program
initialization text. -/
def startCode : String :=
  macros ++
  "\n.stack 100h\nstart :\n    mov ax, @data\n    mov ds, ax\n\n    ; Set to video mode \n    mov ah, 00h\n    mov al, 03h ; 80x25 color text mode\n    int 10h\n\n"

/-- The `endCode` template (lines 57-62). -/
def endCode : String :=
  "\n    mov ah, 4Ch      ; DOS exit function\n    mov al, 0        ; Return code 0\n    int 21h          ; Call DOS interrupt\nend start ; end program\n"

/-- JavaScript `n.toString(16)` for a natural number: lowercase hex digits,
no padding. -/
def jsHex (n : Nat) : String :=
  (Nat.toDigits 16 n).asString

/-- JavaScript `s.padStart(2, '0')`. -/
def padStart2 (s : String) : String :=
  if s.length < 2 then String.mk (List.replicate (2 - s.length) '0') ++ s
  else s

/-- One character of the text-segment string literal: a double quote
(`String.fromCharCode 34`) is doubled, anything else passes through
(lines 119-126). -/
def escapeCharCode (c : Nat) : String :=
  if c = 34 then String.mk [Char.ofNat 34, Char.ofNat 34]
  else String.mk [Char.ofNat c]

/-- The accumulated `stringLiteral` of a text segment. -/
def stringLiteralOf (chars : List Nat) : String :=
  chars.foldl (fun s c => s ++ escapeCharCode c) ""

/-- The label `txt_<counter>_R<row>_C<col>` (line 117). -/
def textLabel (counter row startCol : Nat) : String :=
  "txt_" ++ Nat.repr counter ++ "_R" ++ Nat.repr row ++ "_C" ++ Nat.repr startCol

/-- The string-table entry of one text segment (line 128). -/
def textDeclLine (counter row startCol : Nat) (chars : List Nat) : String :=
  "\t" ++ textLabel counter row startCol ++ " db \"" ++ stringLiteralOf chars ++
    "\",'$'\n"

/-- The instruction-stream text of one text segment (lines 130-136): cursor
directive, a `colorz` directive only when the attribute differs from 0x07,
then the DOS string-output sequence referencing the label. -/
def textMiddleCode (row counter startCol a len : Nat) : String :=
  "\n\tsetcursor " ++ Nat.repr row ++ ", " ++ Nat.repr startCol ++ "\n" ++
  (if a ≠ 7 then
    "\tcolorz " ++ Nat.repr a ++ ", " ++ Nat.repr len ++ "\n"
  else "") ++
  "\tmov ah, 09h\n" ++ "\tmov dx, offset " ++ textLabel counter row startCol ++
    "\n" ++ "\tint 21h\n"

/-- The instruction-stream text of one block segment (lines 172-173). -/
def blockMiddleCode (row startCol ch a count : Nat) : String :=
  "\n\tsetcursor " ++ Nat.repr row ++ ", " ++ Nat.repr startCol ++ "\n" ++
  "\trenderc " ++ Nat.repr ch ++ ", 0, " ++ padStart2 (jsHex a) ++ "h, " ++
    Nat.repr count ++ "\n"

/-- Emission of one row's segments, threading the grid-wide label counter:
returns the new counter, the string-table additions and the
instruction-stream additions, appended in scan order. -/
def emitRowSegs (row : Nat) : Nat → List Segment → Nat × String × String
  | counter, [] => (counter, "", "")
  | counter, Segment.text startCol a chars :: rest =>
    let p := emitRowSegs row (counter + 1) rest
    (p.1, textDeclLine counter row startCol chars ++ p.2.1,
      textMiddleCode row counter startCol a chars.length ++ p.2.2)
  | counter, Segment.block startCol ch a count :: rest =>
    let p := emitRowSegs row counter rest
    (p.1, p.2.1, blockMiddleCode row startCol ch a count ++ p.2.2)

/-- Emission over all rows (`for (let row = 0; ...)`), threading the counter
row to row and concatenating `string_data_declarations` and
`currentMiddleCode`. -/
def emitGridAux : Nat → Nat → List (List Cell) → String × String
  | _, _, [] => ("", "")
  | counter, r, row :: rest =>
    let p := emitRowSegs r counter (rowSegments row)
    let q := emitGridAux p.1 (r + 1) rest
    (p.2.1 ++ q.1, p.2.2 ++ q.2)

/-- The `(string_data_declarations, currentMiddleCode)` pair of a whole
generation call. -/
def emitGrid (g : List (List Cell)) : String × String :=
  emitGridAux 0 0 g

/-- JavaScript `hay.lastIndexOf(pat)` on strings, as an optional index into
the character list: the largest index at which `pat` starts, if any. -/
def findLastIdx (hay pat : List Char) : Option Nat :=
  ((List.range (hay.length + 1)).filter
    (fun i => pat.isPrefixOf (hay.drop i))).getLast?

/-- Bool substring test built on `findLastIdx` (`lastIndexOf(...) !== -1`). -/
def containsSub (s pat : String) : Bool :=
  (findLastIdx s.data pat.data).isSome

/-- Lines 184-195 of `generator.ts`: insert `ins` immediately after the last
occurrence of `marker` in `pre`; if the marker does not occur, append `ins`
after the whole of `pre`. -/
def insertAfterLastMarker (pre marker ins : String) : String :=
  match findLastIdx pre.data marker.data with
  | some i =>
    String.mk (pre.data.take (i + marker.data.length)) ++ ins ++
      String.mk (pre.data.drop (i + marker.data.length))
  | none => pre ++ ins

/-- Mirror of `generateTASMCode` from `src/tasm/generator.ts` (current
version): scan every row into segments, emit declarations and instructions,
then assemble `startCode` (with the string table inserted after the last
`.data\n` marker), the instruction stream, and `endCode`. -/
def generateTASMCode (g : List (List Cell)) : String :=
  let p := emitGrid g
  insertAfterLastMarker startCode ".data\n" p.1 ++ p.2 ++ endCode

/-! ## The older snapshot of `generateTASMCode` (`src/unnamed/part_005`):
identical except that it lacks the redundant skip-check of lines 92-95. -/

/-- The row scan of the older `generateTASMCode` (part_005 lines 72-175):
same as `scanRowFuel` without the second skip test. -/
def scanRowFuelOld : Nat → Nat → List Cell → List Segment
  | 0, _, _ => []
  | _ + 1, _, [] => []
  | fuel + 1, col, cell :: rest =>
    match cell with
    | none => scanRowFuelOld fuel (col + 1) rest
    | some cc =>
      if cc.charCode = none ∧ cc.attr = none then
        scanRowFuelOld fuel (col + 1) rest
      else
        let currentAttribute := cc.attr.getD 0x07
        let tp :=
          if cc.charCode ≠ none ∧ cc.charCode ≠ some 36 then
            textScan currentAttribute (cell :: rest)
          else ([], 0)
        if tp.1.length > 0 then
          Segment.text col currentAttribute tp.1 ::
            scanRowFuelOld fuel (col + tp.2) ((cell :: rest).drop tp.2)
        else
          let renderChar := cc.charCode.getD 0x20
          let renderAttribute := cc.attr.getD 0x07
          let count := blockScan renderChar renderAttribute (cell :: rest)
          if count > 0 then
            Segment.block col renderChar renderAttribute count ::
              scanRowFuelOld fuel (col + count) ((cell :: rest).drop count)
          else
            scanRowFuelOld fuel (col + 1) rest

/-- Whole-row scan of the older version. -/
def rowSegmentsOld (row : List Cell) : List Segment :=
  scanRowFuelOld row.length 0 row

/-- Emission over all rows for the older version (its emission code is
byte-identical to the current one; only the scan differs). -/
def emitGridAuxOld : Nat → Nat → List (List Cell) → String × String
  | _, _, [] => ("", "")
  | counter, r, row :: rest =>
    let p := emitRowSegs r counter (rowSegmentsOld row)
    let q := emitGridAuxOld p.1 (r + 1) rest
    (p.2.1 ++ q.1, p.2.2 ++ q.2)

/-- Mirror of the older `generateTASMCode` (part_005 lines 65-199). -/
def generateTASMCodeOld (g : List (List Cell)) : String :=
  let p := emitGridAuxOld 0 0 g
  insertAfterLastMarker startCode ".data\n" p.1 ++ p.2 ++ endCode

/-- The extra skip-check of the current version (lines 92-95) sits below the
first skip-check and can never fire, so the two scans agree everywhere. -/
theorem scanRowFuel_eq_old :
    ∀ (fuel col : Nat) (cells : List Cell),
      scanRowFuel fuel col cells = scanRowFuelOld fuel col cells := by
  intro fuel
  induction fuel with
  | zero => intro col cells; rfl
  | succ n ih =>
    intro col cells
    match cells with
    | [] => rfl
    | none :: rest =>
      simp only [scanRowFuel, scanRowFuelOld]
      exact ih _ _
    | some cc :: rest =>
      simp only [scanRowFuel, scanRowFuelOld]
      by_cases h1 : cc.charCode = none ∧ cc.attr = none
      · simp only [if_pos h1]
        exact ih _ _
      · have h2 : ¬(cc.attr = none ∧ cc.charCode = none) := fun h => h1 ⟨h.2, h.1⟩
        simp only [if_neg h1, if_neg h2, ih]

/-- The two versions also emit identically row by row. -/
theorem emitGridAux_eq_old :
    ∀ (counter r : Nat) (g : List (List Cell)),
      emitGridAux counter r g = emitGridAuxOld counter r g := by
  intro counter r g
  induction g generalizing counter r with
  | nil => rfl
  | cons row rest ih =>
    simp only [emitGridAux, emitGridAuxOld, rowSegments, rowSegmentsOld,
      scanRowFuel_eq_old, ih]

/-- Claim C10: the current `generateTASMCode` of `src/tasm/generator.ts` and
the older snapshot of `src/unnamed/part_005` return identical output on every
grid: the only textual difference, the skip-check of lines 92-95, is
unreachable because the first skip-check already handled its condition. -/
theorem c10_versions_equal (g : List (List Cell)) :
    generateTASMCode g = generateTASMCodeOld g := by
  simp only [generateTASMCode, generateTASMCodeOld, emitGrid, emitGridAux_eq_old]

/-- Character position just after the last `.data\n` marker of `startCode`
(the marker starts at index 425). -/
def dataMarkerEnd : Nat := 431

/-- `startCode` up to and including the last `.data\n` marker line. -/
def startCodePre : String := String.mk (startCode.data.take dataMarkerEnd)

/-- `startCode` after the last `.data\n` marker line. -/
def startCodePost : String := String.mk (startCode.data.drop dataMarkerEnd)

/-- The concrete effect of the insertion on `startCode`: the string table
lands right after the last `.data` marker line. -/
theorem insertAfter_startCode (d : String) :
    insertAfterLastMarker startCode ".data\n" d =
      startCodePre ++ d ++ startCodePost := by
  have h : findLastIdx startCode.data (".data\n").data = some 425 := by decide
  simp only [insertAfterLastMarker, h]
  rfl

/-- Claim C7: for every grid the output is assembled as preamble +
string table + rest of preamble + instruction stream + postamble, where the
split point of the preamble is immediately after the last occurrence of the
`.data\n` marker (the part before the insertion ends with the marker and the
part after contains no further marker); and when a preamble contains no
marker at all, the string table is appended directly after it. -/
theorem c7_assembly :
    (∀ g, generateTASMCode g =
      startCodePre ++ (emitGrid g).1 ++ startCodePost ++ (emitGrid g).2 ++
        endCode) ∧
    startCodePre ++ startCodePost = startCode ∧
    ".data\n".data <:+ startCodePre.data ∧
    containsSub startCodePost ".data\n" = false ∧
    (∀ pre ins, containsSub pre ".data\n" = false →
      insertAfterLastMarker pre ".data\n" ins = pre ++ ins) := by
  refine ⟨?_, by decide, by decide, by decide, ?_⟩
  · intro g
    simp only [generateTASMCode, insertAfter_startCode]
  · intro pre ins h
    unfold containsSub at h
    unfold insertAfterLastMarker
    cases hf : findLastIdx pre.data (".data\n").data with
    | none => simp only [hf]
    | some i =>
      rw [hf] at h
      simp at h

theorem c7_witness :
    containsSub "x" ".data\n" = false ∧
    insertAfterLastMarker "x" ".data\n" "y" = "x" ++ "y" :=
  ⟨by decide, c7_assembly.2.2.2.2 "x" "y" (by decide)⟩

/-- Every character `Nat.toDigitsCore 10` appends is a decimal digit. -/
theorem toDigitsCore_isDigit :
    ∀ (f n : Nat) (acc : List Char), (∀ c ∈ acc, c.isDigit = true) →
      ∀ c ∈ Nat.toDigitsCore 10 f n acc, c.isDigit = true := by
  intro f
  induction f with
  | zero => intro n acc hacc c hc; exact hacc c hc
  | succ m ih =>
    intro n acc hacc c hc
    have hd : (Nat.digitChar (n % 10)).isDigit = true := by
      have h10 : n % 10 < 10 := Nat.mod_lt _ (by norm_num)
      set k := n % 10 with hk
      interval_cases k <;> decide
    simp only [Nat.toDigitsCore] at hc
    split at hc
    · rcases List.mem_cons.mp hc with h | h
      · exact h ▸ hd
      · exact hacc c h
    · refine ih _ _ ?_ c hc
      intro d hdm
      rcases List.mem_cons.mp hdm with h | h
      · exact h ▸ hd
      · exact hacc d h

/-- The decimal rendering of a natural number consists of digits only. -/
theorem repr_chars_isDigit (n : Nat) :
    ∀ c ∈ (Nat.repr n).data, c.isDigit = true := by
  intro c hc
  exact toDigitsCore_isDigit (n + 1) n [] (by simp) c hc

/-- In particular no decimal rendering contains the letter `z`. -/
theorem z_not_mem_repr (n : Nat) : 'z' ∉ (Nat.repr n).data := by
  intro h
  have := repr_chars_isDigit n 'z' h
  simp at this

/-- `findLastIdx` finds something whenever the pattern actually occurs. -/
theorem findLastIdx_isSome_of_eq (s x pt y : List Char)
    (h : s = x ++ (pt ++ y)) : (findLastIdx s pt).isSome = true := by
  unfold findLastIdx
  rw [List.getLast?_isSome]
  apply List.ne_nil_of_mem (a := x.length)
  apply List.mem_filter.mpr
  constructor
  · apply List.mem_range.mpr
    subst h
    simp [List.length_append]
    omega
  · have hd : s.drop x.length = pt ++ y := by
      subst h
      exact List.drop_left x (pt ++ y)
    rw [hd]
    exact List.isPrefixOf_iff_prefix.mpr (List.prefix_append pt y)

/-- `findLastIdx` finds nothing when some character of the pattern does not
occur in the searched list at all. -/
theorem findLastIdx_eq_none (s pt : List Char) (c : Char)
    (hc : c ∈ pt) (hs : c ∉ s) : findLastIdx s pt = none := by
  unfold findLastIdx
  have hfil : (List.range (s.length + 1)).filter
      (fun i => pt.isPrefixOf (s.drop i)) = [] := by
    apply List.filter_eq_nil_iff.mpr
    intro i hi
    cases hpre : pt.isPrefixOf (s.drop i)
    · simp
    · exfalso
      have hp := List.isPrefixOf_iff_prefix.mp hpre
      exact hs (List.drop_subset i s (hp.subset hc))
  rw [hfil]
  rfl

/-- The instruction block of a text segment mentions `colorz` exactly when
the segment's attribute differs from the default 0x07. -/
theorem colorz_in_textMiddleCode_iff (row counter startCol a len : Nat) :
    containsSub (textMiddleCode row counter startCol a len) "colorz" = true ↔
      a ≠ 7 := by
  constructor
  · intro h ha
    subst ha
    have hz : 'z' ∉ (textMiddleCode row counter startCol 7 len).data := by
      have hif : (if (7 : Nat) ≠ 7 then
          "\tcolorz " ++ Nat.repr 7 ++ ", " ++ Nat.repr len ++ "\n"
        else "") = "" := by simp
      simp only [textMiddleCode, textLabel, hif, String.data_append,
        List.append_assoc, List.mem_append, not_or]
      exact ⟨by decide, z_not_mem_repr _, by decide, z_not_mem_repr _,
        by decide, by decide, by decide, by decide, by decide,
        z_not_mem_repr _, by decide, z_not_mem_repr _, by decide,
        z_not_mem_repr _, by decide, by decide⟩
    have hn := findLastIdx_eq_none
      (textMiddleCode row counter startCol 7 len).data "colorz".data 'z'
      (by decide) hz
    unfold containsSub at h
    rw [hn] at h
    simp at h
  · intro ha
    unfold containsSub
    apply findLastIdx_isSome_of_eq _
      ("\n\tsetcursor " ++ Nat.repr row ++ ", " ++ Nat.repr startCol ++ "\n" ++
        "\t").data
      "colorz".data
      ((" " ++ Nat.repr a ++ ", " ++ Nat.repr len ++ "\n" ++ "\tmov ah, 09h\n" ++
        "\tmov dx, offset " ++ textLabel counter row startCol ++ "\n" ++
        "\tint 21h\n").data)
    simp only [textMiddleCode]
    rw [if_pos ha]
    simp only [String.data_append, List.append_assoc]
    rw [show (['\t', 'c', 'o', 'l', 'o', 'r', 'z', ' '] : List Char) =
      ['\t'] ++ (['c', 'o', 'l', 'o', 'r', 'z'] ++ [' ']) from rfl]
    simp only [List.append_assoc]

/-- The grid of scenario A: one cell `{charCode: 65, attribute: 0x07}`. -/
def gridA : List (List Cell) := [[some ⟨some 65, some 7⟩]]

/-- Claim C6: on the 1x1 grid `A`/0x07 the generator produces exactly one
text segment at row 0, column 0, whose string-table entry is the line
`txt_0_R0_C0 db "A",'$'` and whose instruction stream is the cursor
directive `setcursor 0, 0` followed by the string-output sequence for that
label, with no `colorz` directive; in general a text segment's instruction
block contains `colorz` exactly when its attribute differs from 0x07. -/
theorem c6_scenario_a :
    gridSegments gridA = [(0, Segment.text 0 7 [65])] ∧
    (emitGrid gridA).1 = "\ttxt_0_R0_C0 db \"A\",'$'\n" ∧
    (emitGrid gridA).2 =
      "\n\tsetcursor 0, 0\n\tmov ah, 09h\n\tmov dx, offset txt_0_R0_C0\n\tint 21h\n" ∧
    containsSub (emitGrid gridA).2 "colorz" = false ∧
    (∀ row counter startCol a len,
      containsSub (textMiddleCode row counter startCol a len) "colorz" = true ↔
        a ≠ 7) :=
  ⟨by decide, by decide, by decide, by decide, colorz_in_textMiddleCode_iff⟩

/-! ## Sprite-table emitter (`generateSpriteDB`, `src/unnamed/part_004`) -/

/-- `letterMap` of `generateSpriteDB`: one letter per background palette
index. -/
def letterMap : List Char := ['K', 'B', 'G', 'C', 'R', 'M', 'Y', 'W']

/-- `escapeSingle` of `generateSpriteDB`: `s.replace(/'/g, "''")`, doubling
every single-quote character (code 39). -/
def escapeSingle (s : String) : String :=
  String.mk (s.data.flatMap fun c =>
    if c = Char.ofNat 39 then [Char.ofNat 39, Char.ofNat 39] else [c])

/-- JavaScript `arr.indexOf(x)` on a string array, where `x` may be
`undefined`: -1 when absent or not found. -/
def jsIndexOf (l : List String) (x : Option String) : Int :=
  match x with
  | none => -1
  | some s =>
    match l.indexOf? s with
    | some i => (i : Int)
    | none => -1

/-- The per-cell letter of `generateSpriteDB` (part_004 lines 31-44): `.` for
an absent cell or absent attribute, otherwise the letter of
`Math.max(0, BACKGROUND_PALETTE.indexOf(decoded.backgroundColor))` with `?`
fallback. -/
def spriteCellLetter (cell : Cell) : Char :=
  match cell with
  | none => '.'
  | some cc =>
    match cc.attr with
    | none => '.'
    | some a =>
      let decoded := decodeCellData a
      let bgIndex :=
        (max 0 (jsIndexOf BACKGROUND_PALETTE decoded.backgroundColor)).toNat
      (letterMap.get? bgIndex).getD '?'

/-- One row's letter sequence. -/
def spriteRowLine (row : List Cell) : String :=
  String.mk (row.map spriteCellLetter)

/-- One emitted literal line (part_004 lines 47-54): terminator `$` on the
last row and `|` elsewhere; the first row carries the caller's label, later
rows are continuation lines. -/
def spriteLine (numRows : Nat) (label : String) (r : Nat) (row : List Cell) :
    String :=
  let terminator := if r = numRows - 1 then "$" else "|"
  if r = 0 then
    label ++ "\t" ++ "DB '" ++ escapeSingle (spriteRowLine row ++ terminator) ++
      "'"
  else
    "\t" ++ "\t" ++ "DB '" ++ escapeSingle (spriteRowLine row ++ terminator) ++
      "'"

/-- Mirror of `generateSpriteDB` (part_004 lines 17-60): the literal lines
joined by newline plus a trailing newline, or the empty string for an empty
grid. -/
def generateSpriteDB (g : List (List Cell)) (label : String) : String :=
  let rows := (List.range g.length).map fun r =>
    spriteLine g.length label r (g.getD r [])
  if rows.length = 0 then "" else String.intercalate "\n" rows ++ "\n"

/-- The grid of scenario E: row 0 has two attribute-0 cells, row 1 two
absent cells. -/
def gridE : List (List Cell) :=
  [[some ⟨none, some 0⟩, some ⟨none, some 0⟩], [none, none]]

/-- The doubling rule applied to the quote character doubles its count. -/
theorem escapeSingle_count_q (q : Char) (l : List Char) :
    (l.flatMap fun c => if c = q then [q, q] else [c]).count q =
      2 * l.count q := by
  induction l with
  | nil => rfl
  | cons a l ih =>
    by_cases ha : a = q
    · subst ha
      simp only [List.flatMap_cons, if_pos rfl, List.count_append, ih]
      simp [List.count_cons]
      omega
    · simp only [List.flatMap_cons, if_neg ha, List.count_append, ih]
      simp [List.count_cons, ha]

/-- The doubling rule leaves the count of every other character unchanged. -/
theorem escapeSingle_count_ne (q c : Char) (hc : c ≠ q) (l : List Char) :
    (l.flatMap fun x => if x = q then [q, q] else [x]).count c = l.count c := by
  induction l with
  | nil => rfl
  | cons a l ih =>
    by_cases ha : a = q
    · subst ha
      simp only [List.flatMap_cons, if_pos rfl, List.count_append, ih]
      simp [List.count_cons, Ne.symm hc]
    · simp only [List.flatMap_cons, if_neg ha, List.count_append, ih]
      simp [List.count_cons]
      omega

/-- Claim C8, counterexample: `escapeSingle` leaves a double-quote character
(code 34) unchanged — it does not double it, unlike the code emitter's
escaping rule (`stringLiteralOf`), which turns one code-34 character into
two. -/
theorem c8_counterexample :
    escapeSingle (String.mk [Char.ofNat 34]) = String.mk [Char.ofNat 34] ∧
    escapeSingle (String.mk [Char.ofNat 34]) ≠
      String.mk [Char.ofNat 34, Char.ofNat 34] ∧
    stringLiteralOf [34] = String.mk [Char.ofNat 34, Char.ofNat 34] := by
  decide

/-- Claim C8 as amended: the sprite emitter's escaping doubles embedded
single-quote characters (code 39) — the code emitter's doubling rule
transposed to the quote character of its single-quoted literals — and leaves
every other character, double quotes included, unchanged. -/
theorem c8_amended (s : String) (c : Char) :
    (escapeSingle s).data.count (Char.ofNat 39) =
      2 * s.data.count (Char.ofNat 39) ∧
    (c ≠ Char.ofNat 39 →
      (escapeSingle s).data.count c = s.data.count c) := by
  constructor
  · exact escapeSingle_count_q _ _
  · intro hc
    exact escapeSingle_count_ne _ _ hc _

theorem c8_amended_witness :
    ('x' : Char) ≠ Char.ofNat 39 ∧
    (escapeSingle (String.mk ['a', Char.ofNat 39, 'b'])).data.count 'x' =
      (String.mk ['a', Char.ofNat 39, 'b']).data.count 'x' :=
  ⟨by decide, (c8_amended (String.mk ['a', Char.ofNat 39, 'b']) 'x').2 (by decide)⟩

/-- The letter of a cell with a present attribute is the `letterMap` entry at
the decoded background index `(attr AND 0x70) >>> 4` (the `indexOf` round
trip through the distinct palette is the identity). -/
theorem spriteCellLetter_eq_mask (chOpt : Option Nat) (a : Nat) :
    spriteCellLetter (some ⟨chOpt, some a⟩) =
      letterMap.getD ((a &&& BACKGROUND_MASK) >>> 4) '?' := by
  have hi : (a &&& BACKGROUND_MASK) >>> 4 < 8 := by
    have h1 : a &&& BACKGROUND_MASK ≤ 112 := by
      have := Nat.and_le_right (n := a) (m := BACKGROUND_MASK)
      simpa [BACKGROUND_MASK] using this
    have h2 : (a &&& BACKGROUND_MASK) >>> 4 = (a &&& BACKGROUND_MASK) / 16 := by
      simp [Nat.shiftRight_eq_div_pow]
    rw [h2]
    have : a &&& BACKGROUND_MASK < 128 := by omega
    exact Nat.div_lt_of_lt_mul (by omega)
  simp only [spriteCellLetter, decodeCellData]
  generalize hgen : (a &&& BACKGROUND_MASK) >>> 4 = i at hi ⊢
  interval_cases i <;> decide

/-- Claim C9, counterexample: on the scenario E grid the output is not the
two literal lines merely joined by newline — the code appends one more
trailing newline after the join. -/
theorem c9_counterexample :
    generateSpriteDB gridE "LABEL" ≠ "LABEL\tDB 'KK|'\n\t\tDB '..$'" ∧
    generateSpriteDB gridE "LABEL" = "LABEL\tDB 'KK|'\n\t\tDB '..$'\n" := by
  decide

/-- Claim C9 as amended: an empty grid yields the empty string; a non-empty
grid yields exactly one literal line per row, joined by newline **with a
trailing newline appended**, where line `i` is the label plus a tab for the
first row and a double-tab continuation for every later row, followed by
`DB '`, the escaped letter sequence of row `i` terminated by `$` on the last
row and `|` on every other row, and a closing quote; each row contributes
exactly one letter per cell, `.` for absent cells or absent attributes and
the background-indexed letter otherwise; and scenario E produces its two
expected lines plus the trailing newline. -/
theorem c9_amended :
    (∀ label, generateSpriteDB [] label = "") ∧
    (∀ (g : List (List Cell)) (label : String), g ≠ [] →
      ∃ lines : List String, lines.length = g.length ∧
        generateSpriteDB g label = String.intercalate "\n" lines ++ "\n" ∧
        ∀ i (h : i < lines.length), lines.get ⟨i, h⟩ =
          (if i = 0 then label ++ "\t" else "\t\t") ++ "DB '" ++
            escapeSingle (spriteRowLine (g.getD i []) ++
              (if i = g.length - 1 then "$" else "|")) ++ "'") ∧
    (∀ row : List Cell, (spriteRowLine row).length = row.length) ∧
    (∀ (chOpt : Option Nat) (a : Nat),
      spriteCellLetter (some ⟨chOpt, some a⟩) =
        letterMap.getD ((a &&& BACKGROUND_MASK) >>> 4) '?') ∧
    spriteCellLetter none = '.' ∧
    (∀ chOpt : Option Nat, spriteCellLetter (some ⟨chOpt, none⟩) = '.') ∧
    generateSpriteDB gridE "LABEL" = "LABEL\tDB 'KK|'\n\t\tDB '..$'\n" := by
  refine ⟨fun label => rfl, ?_, ?_, spriteCellLetter_eq_mask, rfl,
    fun chOpt => rfl, by decide⟩
  · intro g label hg
    refine ⟨(List.range g.length).map fun r =>
      spriteLine g.length label r (g.getD r []), by simp, ?_, ?_⟩
    · simp only [generateSpriteDB]
      rw [if_neg]
      simp only [List.length_map, List.length_range]
      exact fun h => hg (List.length_eq_zero.mp h)
    · intro i h
      rw [List.get_eq_getElem]
      simp only [List.getElem_map, List.getElem_range]
      by_cases hi : i = 0
      · subst hi
        simp [spriteLine]
      · simp only [spriteLine, if_neg hi]
        rw [show (("\t" : String) ++ "\t") = "\t\t" from rfl]
  · intro row
    simp [spriteRowLine, String.length]

theorem c9_amended_witness :
    gridE ≠ [] ∧
    ∃ lines : List String, lines.length = gridE.length ∧
      generateSpriteDB gridE "LABEL" = String.intercalate "\n" lines ++ "\n" ∧
      ∀ i (h : i < lines.length), lines.get ⟨i, h⟩ =
        (if i = 0 then "LABEL" ++ "\t" else "\t\t") ++ "DB '" ++
          escapeSingle (spriteRowLine (gridE.getD i []) ++
            (if i = gridE.length - 1 then "$" else "|")) ++ "'" :=
  ⟨by decide, c9_amended.2.1 gridE "LABEL" (by decide)⟩
